import Mathlib

/-!
Verification development for the two-branch parallel-pipe flow solver.

The hydraulic core consists of pure numeric functions: cross-sectional
area, mean velocity, Reynolds number, a regime-dependent friction factor
(laminar 64/Re below Re = 2000, Swamee-Jain above), the Darcy-Weisbach
head loss, and a bisection solver `solve_parallel` that splits a total
flow `QT` between two branches so that the two head losses agree.

The embedding below models the floating-point source in exact real
arithmetic.  Python's raising division is additionally modelled by an
`Option`-valued copy of each function (`divE`, `reynoldsE`, `frictionE`,
`head_lossE`, `solve_parallelE`) in which a division by zero produces
`none`; the plain real-valued definitions use Lean's total division.
-/

open Real

/-- Module constant `G = 9.81` of the source. -/
noncomputable def gconst : ℝ := 9.81

/-- Module constant `RHO_WATER = 998.0` of the source. -/
noncomputable def rhoWater : ℝ := 998.0

/-- Module constant `MU_WATER = 0.001002` of the source. -/
noncomputable def muWater : ℝ := 0.001002

/-- Source `area(D)`: `pi * D**2 / 4.0`. -/
noncomputable def area (D : ℝ) : ℝ := Real.pi * D ^ 2 / 4.0

/-- Source `velocity_from_Q(Q, D)`: `Q / area(D)`. -/
noncomputable def velocity_from_Q (Q D : ℝ) : ℝ := Q / area D

/-- Source `reynolds_number(Q, D, rho, mu)`:
`V = abs(velocity_from_Q(Q, D)); Re = abs(rho * V * D / mu)`. -/
noncomputable def reynolds_number (Q D rho mu : ℝ) : ℝ :=
  |rho * |velocity_from_Q Q D| * D / mu|

/-- Source `friction_factor_swamee_jain(Re, D, eps)`:
sentinel `1e6` for `Re <= 0`, laminar `64/Re` for `Re < 2000`, otherwise
the Swamee-Jain correlation with the `log10` argument clamped to `1e-12`
whenever it is nonpositive. -/
noncomputable def friction_factor_swamee_jain (Re D eps : ℝ) : ℝ :=
  if Re ≤ 0 then 1e6
  else if Re < 2000 then 64.0 / Re
  else
    let term := eps / (3.7 * D) + 5.74 / Re ^ (0.9 : ℝ)
    let term2 := if term ≤ 0 then 1e-12 else term
    0.25 / (Real.logb 10 term2) ^ 2

/-- Source `head_loss(Q, D, L)`: `0` for `Q <= 0`, otherwise the
Darcy-Weisbach loss `f * (L/D) * (V*V/(2*G))` with the module defaults
`rho = 998`, `mu = 0.001002`, `eps = 0.000045`. -/
noncomputable def head_loss (Q D L : ℝ) : ℝ :=
  if Q ≤ 0 then 0.0
  else
    let V := velocity_from_Q Q D
    let Re := reynolds_number Q D rhoWater muWater
    let f := friction_factor_swamee_jain Re D 0.000045
    f * (L / D) * (V * V / (2 * gconst))

/-- Result record of `solve_parallel`: the dict
`{"Q1": _, "Q2": _, "hf": _, "it": _}` of the source. -/
structure FlowSplitResult where
  Q1 : ℝ
  Q2 : ℝ
  hf : ℝ
  it : ℕ

/-- The signed resid `f(Q1) = head_loss(Q1, D1, L1) - head_loss(QT - Q1, D2, L2)`
defined inside `solve_parallel`. -/
noncomputable def resid (QT D1 L1 D2 L2 Q1 : ℝ) : ℝ :=
  head_loss Q1 D1 L1 - head_loss (QT - Q1) D2 L2

/-- The `for _ in range(n)` sign-change search of `solve_parallel`:
repeatedly `b = max(a + 1e-15, b * 0.9)`, stopping as soon as
`fa * f(b) <= 0`.  Returns `some (b, f b)` when a sign change is found
and `none` when the `for` loop completes without `break` (the source's
`for`-`else` fallback). -/
noncomputable def shrink (g : ℝ → ℝ) : ℕ → ℝ → ℝ → ℝ → Option (ℝ × ℝ)
  | 0, _, _, _ => none
  | n + 1, a, b, fa =>
    let b2 := max (a + 1e-15) (b * 0.9)
    let fb2 := g b2
    if fa * fb2 ≤ 0 then some (b2, fb2) else shrink g n a b2 fa

/-- The `while it < max_iter` bisection loop of `solve_parallel`, with the
remaining fuel `max_iter - it` made explicit.  State is the bracket
`(a, b)`, the cached resid `fa = g a`, and the iteration counter `it`.
Returns the final `(a, b, it)`. -/
noncomputable def bisectLoop (g : ℝ → ℝ) (tol : ℝ) : ℕ → ℝ → ℝ → ℝ → ℕ → ℝ × ℝ × ℕ
  | 0, a, b, _, it => (a, b, it)
  | fuel + 1, a, b, fa, it =>
    let mid := (a + b) / 2
    let fm := g mid
    if |fm| < tol then (a, b, it)
    else if fa * fm ≤ 0 then bisectLoop g tol fuel a mid fa (it + 1)
    else bisectLoop g tol fuel mid b fm (it + 1)

/-- Outcome of the phase of `solve_parallel` that precedes the bisection
loop (this phase does not read `tol` or `max_iter`): either an early
return value, or the bracket `(a, b)` and cached `fa` handed to the loop. -/
inductive SolverPre where
  | early (r : FlowSplitResult) : SolverPre
  | loop (a b fa : ℝ) : SolverPre

/-- The bracket handed to the bisection loop, if the pre-phase reaches it. -/
noncomputable def SolverPre.loopBracket : SolverPre → Option (ℝ × ℝ)
  | .early _ => none
  | .loop a b _ => some (a, b)

/-- The pre-loop phase of source `solve_parallel`: degenerate-input check,
bracket initialization `a = 1e-12`, `b = QT - 1e-12`, the `b <= a`
short-circuit, the sign-change test `fa * fb > 0` with the shrink search,
and the equal-split fallback. -/
noncomputable def solve_pre (QT D1 L1 D2 L2 : ℝ) : SolverPre :=
  if QT ≤ 0 ∨ D1 ≤ 0 ∨ D2 ≤ 0 ∨ L1 ≤ 0 ∨ L2 ≤ 0 then
    .early ⟨0.0, 0.0, 0.0, 0⟩
  else
    let a : ℝ := 1e-12
    let b := QT - 1e-12
    if b ≤ a then .early ⟨QT, 0.0, head_loss QT D1 L1, 0⟩
    else
      let fa := resid QT D1 L1 D2 L2 a
      let fb := resid QT D1 L1 D2 L2 b
      if fa * fb > 0 then
        match shrink (resid QT D1 L1 D2 L2) 20 a b fa with
        | none => .early ⟨QT / 2, QT - QT / 2, head_loss (QT / 2) D1 L1, 0⟩
        | some (b2, _) => .loop a b2 fa
      else .loop a b fa

/-- Source `solve_parallel(QT, D1, L1, D2, L2, tol, max_iter)`: the
pre-loop phase followed by the bisection loop and the result assembly
`Q1 = (a + b) / 2`, `Q2 = QT - Q1`, `hf = head_loss(Q1, D1, L1)`. -/
noncomputable def solve_parallel (QT D1 L1 D2 L2 tol : ℝ) (max_iter : ℕ) :
    FlowSplitResult :=
  match solve_pre QT D1 L1 D2 L2 with
  | .early r => r
  | .loop a b fa =>
    let res := bisectLoop (resid QT D1 L1 D2 L2) tol max_iter a b fa 0
    let Q1 := (res.1 + res.2.1) / 2
    ⟨Q1, QT - Q1, head_loss Q1 D1 L1, res.2.2⟩

/-- The head-loss function in the signature the specification gives it,
with roughness and fluid properties as explicit arguments:
`headLoss(Q, D, L, eps, rho, mu)` returning `0` for `Q <= 0` and the
Darcy-Weisbach value `f * (L/D) * V^2 / (2*9.81)` otherwise.  Used to
compare the source's three-argument `head_loss` with the specified
six-argument interface. -/
noncomputable def spec_head_loss (Q D L eps rho mu : ℝ) : ℝ :=
  if Q ≤ 0 then 0.0
  else
    let V := velocity_from_Q Q D
    let Re := reynolds_number Q D rho mu
    let f := friction_factor_swamee_jain Re D eps
    f * (L / D) * (V * V / (2 * gconst))

/-- The Swamee-Jain `log10` argument after the source's clamp: the raw
term `eps/(3.7 D) + 5.74/Re^0.9`, replaced by `1e-12` when nonpositive. -/
noncomputable def clampedArg (Re D eps : ℝ) : ℝ :=
  let term := eps / (3.7 * D) + 5.74 / Re ^ (0.9 : ℝ)
  if term ≤ 0 then 1e-12 else term

/-- Division with Python's semantics: `x / y` raises `ZeroDivisionError`
when `y = 0`, modelled as `none`. -/
noncomputable def divE (x y : ℝ) : Option ℝ :=
  if y = 0 then none else some (x / y)

/-- `reynolds_number` with raising division: `none` exactly when a
division by zero occurs (`area D = 0` or `mu = 0`). -/
noncomputable def reynoldsE (Q D rho mu : ℝ) : Option ℝ :=
  (divE Q (area D)).bind fun v =>
    (divE (rho * |v| * D) mu).map fun x => |x|

/-- `friction_factor_swamee_jain` with raising division. -/
noncomputable def frictionE (Re D eps : ℝ) : Option ℝ :=
  if Re ≤ 0 then some 1e6
  else if Re < 2000 then divE 64.0 Re
  else
    (divE eps (3.7 * D)).bind fun x =>
      (divE 5.74 (Re ^ (0.9 : ℝ))).bind fun y =>
        let term := x + y
        let term2 := if term ≤ 0 then 1e-12 else term
        divE 0.25 ((Real.logb 10 term2) ^ 2)

/-- `head_loss` with raising division. -/
noncomputable def head_lossE (Q D L : ℝ) : Option ℝ :=
  if Q ≤ 0 then some 0.0
  else
    (divE Q (area D)).bind fun V =>
      (reynoldsE Q D rhoWater muWater).bind fun Re =>
        (frictionE Re D 0.000045).bind fun f =>
          (divE L D).map fun LD => f * LD * (V * V / (2 * gconst))

/-- The solver's resid with raising division. -/
noncomputable def residE (QT D1 L1 D2 L2 Q1 : ℝ) : Option ℝ :=
  (head_lossE Q1 D1 L1).bind fun h1 =>
    (head_lossE (QT - Q1) D2 L2).map fun h2 => h1 - h2

/-- The shrink search with raising resid evaluation.  The outer
`Option` is the exception; the inner `Option` distinguishes a found sign
change from the fallback. -/
noncomputable def shrinkE (g : ℝ → Option ℝ) :
    ℕ → ℝ → ℝ → ℝ → Option (Option (ℝ × ℝ))
  | 0, _, _, _ => some none
  | n + 1, a, b, fa =>
    let b2 := max (a + 1e-15) (b * 0.9)
    (g b2).bind fun fb2 =>
      if fa * fb2 ≤ 0 then some (some (b2, fb2)) else shrinkE g n a b2 fa

/-- The bisection loop with raising resid evaluation. -/
noncomputable def bisectLoopE (g : ℝ → Option ℝ) (tol : ℝ) :
    ℕ → ℝ → ℝ → ℝ → ℕ → Option (ℝ × ℝ × ℕ)
  | 0, a, b, _, it => some (a, b, it)
  | fuel + 1, a, b, fa, it =>
    (g ((a + b) / 2)).bind fun fm =>
      if |fm| < tol then some (a, b, it)
      else if fa * fm ≤ 0 then bisectLoopE g tol fuel a ((a + b) / 2) fa (it + 1)
      else bisectLoopE g tol fuel ((a + b) / 2) b fm (it + 1)

/-- `solve_parallel` with raising division: `none` exactly when some
internal evaluation divides by zero. -/
noncomputable def solve_parallelE (QT D1 L1 D2 L2 tol : ℝ) (max_iter : ℕ) :
    Option FlowSplitResult :=
  if QT ≤ 0 ∨ D1 ≤ 0 ∨ D2 ≤ 0 ∨ L1 ≤ 0 ∨ L2 ≤ 0 then some ⟨0.0, 0.0, 0.0, 0⟩
  else if QT - 1e-12 ≤ 1e-12 then
    (head_lossE QT D1 L1).map fun h => ⟨QT, 0.0, h, 0⟩
  else
    (residE QT D1 L1 D2 L2 1e-12).bind fun fa =>
      (residE QT D1 L1 D2 L2 (QT - 1e-12)).bind fun fb =>
        if fa * fb > 0 then
          (shrinkE (residE QT D1 L1 D2 L2) 20 1e-12 (QT - 1e-12) fa).bind fun s =>
            match s with
            | none =>
              (head_lossE (QT / 2) D1 L1).map fun h => ⟨QT / 2, QT - QT / 2, h, 0⟩
            | some (b2, _) =>
              (bisectLoopE (residE QT D1 L1 D2 L2) tol max_iter 1e-12 b2 fa 0).bind
                fun r =>
                  (head_lossE ((r.1 + r.2.1) / 2) D1 L1).map fun h =>
                    ⟨(r.1 + r.2.1) / 2, QT - (r.1 + r.2.1) / 2, h, r.2.2⟩
        else
          (bisectLoopE (residE QT D1 L1 D2 L2) tol max_iter 1e-12 (QT - 1e-12) fa 0).bind
            fun r =>
              (head_lossE ((r.1 + r.2.1) / 2) D1 L1).map fun h =>
                ⟨(r.1 + r.2.1) / 2, QT - (r.1 + r.2.1) / 2, h, r.2.2⟩

/-- Branch-1 diameter of the concrete input used to analyse the shrink
phase: chosen so that the branch-1 Reynolds number is `2000 * Q / 1.0008e-12`,
putting the laminar/turbulent switch strictly between `QT - 1e-12` and
`1e-12 + 1e-15` for `QT = 2.0005e-12`. -/
noncomputable def D1C : ℝ := 3992 * 1.0008e-12 / (2.004 * Real.pi)

/-- Flow rate with branch Reynolds number exactly 1999 in a pipe of
diameter `1e-8`. -/
noncomputable def QaC : ℝ := 1999 * Real.pi * 1e-8 * 0.001002 / (4 * 998)

/-- Flow rate with branch Reynolds number exactly 2001 in a pipe of
diameter `1e-8`. -/
noncomputable def QbC : ℝ := 2001 * Real.pi * 1e-8 * 0.001002 / (4 * 998)

/-! ### Closed forms and bounds for the hydraulic primitives -/

theorem velocity_eq (Q D : ℝ) : velocity_from_Q Q D = Q * 4 / (Real.pi * D ^ 2) := by
  unfold velocity_from_Q area
  rw [div_div_eq_mul_div]
  norm_num

theorem reynolds_val (Q D : ℝ) (hQ : 0 ≤ Q) (hD : 0 < D) :
    reynolds_number Q D rhoWater muWater = 3992 * Q / (Real.pi * D * 0.001002) := by
  unfold reynolds_number rhoWater muWater
  rw [velocity_eq]
  have hV : 0 ≤ Q * 4 / (Real.pi * D ^ 2) := by positivity
  rw [abs_of_nonneg hV, abs_of_nonneg (by positivity)]
  field_simp
  ring

theorem reynolds_pos (Q D : ℝ) (hQ : 0 < Q) (hD : 0 < D) :
    0 < reynolds_number Q D rhoWater muWater := by
  rw [reynolds_val Q D hQ.le hD]
  positivity

theorem head_loss_pos_eq (Q D L : ℝ) (hQ : ¬ Q ≤ 0) :
    head_loss Q D L =
      friction_factor_swamee_jain (reynolds_number Q D rhoWater muWater) D 0.000045 *
        (L / D) * (velocity_from_Q Q D * velocity_from_Q Q D / (2 * gconst)) := by
  unfold head_loss
  rw [if_neg hQ]

theorem friction_lam_eq (Re D eps : ℝ) (hRe0 : ¬ Re ≤ 0) (hRe : Re < 2000) :
    friction_factor_swamee_jain Re D eps = 64.0 / Re := by
  unfold friction_factor_swamee_jain
  rw [if_neg hRe0, if_pos hRe]

theorem friction_turb_eq (Re D eps : ℝ) (hRe0 : ¬ Re ≤ 0) (hRe : ¬ Re < 2000) :
    friction_factor_swamee_jain Re D eps =
      0.25 / (Real.logb 10 (clampedArg Re D eps)) ^ 2 := by
  unfold friction_factor_swamee_jain clampedArg
  rw [if_neg hRe0, if_neg hRe]

theorem head_loss_lam (Q D L : ℝ) (hQ : 0 < Q) (hD : 0 < D)
    (hRe : reynolds_number Q D rhoWater muWater < 2000) :
    head_loss Q D L = 128 * 0.001002 * L * Q / (998 * Real.pi * D ^ 4 * 9.81) := by
  have hRe0 := reynolds_pos Q D hQ hD
  rw [head_loss_pos_eq Q D L (not_le.mpr hQ),
    friction_lam_eq _ _ _ (not_le.mpr hRe0) hRe,
    reynolds_val Q D hQ.le hD, velocity_eq]
  unfold gconst
  have hπ := Real.pi_pos
  field_simp
  ring

theorem logb_ten_ge_nat (k : ℕ) (x : ℝ) (h : (10 : ℝ) ^ k ≤ x) :
    (k : ℝ) ≤ Real.logb 10 x := by
  have hx : 0 < x := lt_of_lt_of_le (by positivity) h
  rw [Real.le_logb_iff_rpow_le (by norm_num) hx, Real.rpow_natCast]
  exact h

theorem friction_turb_le (Re D eps : ℝ) (k : ℕ) (hk : 0 < k) (hRe : 2000 ≤ Re)
    (hA : (10 : ℝ) ^ k ≤ eps / (3.7 * D)) :
    friction_factor_swamee_jain Re D eps ≤ 0.25 / (k : ℝ) ^ 2 := by
  have hRe0 : (0 : ℝ) < Re := lt_of_lt_of_le (by norm_num) hRe
  have hB : 0 < 5.74 / Re ^ (0.9 : ℝ) := by
    have := Real.rpow_pos_of_pos hRe0 (0.9 : ℝ)
    positivity
  have hterm : (10 : ℝ) ^ k ≤ eps / (3.7 * D) + 5.74 / Re ^ (0.9 : ℝ) := by linarith
  have hterm0 : (0 : ℝ) < eps / (3.7 * D) + 5.74 / Re ^ (0.9 : ℝ) :=
    lt_of_lt_of_le (by positivity) hterm
  rw [friction_turb_eq Re D eps (not_le.mpr hRe0) (not_lt.mpr hRe)]
  have hclamp : clampedArg Re D eps = eps / (3.7 * D) + 5.74 / Re ^ (0.9 : ℝ) := by
    unfold clampedArg
    simp only [if_neg (not_le.mpr hterm0)]
  rw [hclamp]
  have hlogb : (k : ℝ) ≤ Real.logb 10 (eps / (3.7 * D) + 5.74 / Re ^ (0.9 : ℝ)) :=
    logb_ten_ge_nat k _ hterm
  have hk' : (0 : ℝ) < (k : ℝ) := by exact_mod_cast hk
  have hsq : (k : ℝ) ^ 2 ≤ (Real.logb 10 (eps / (3.7 * D) + 5.74 / Re ^ (0.9 : ℝ))) ^ 2 := by
    nlinarith
  exact div_le_div_of_nonneg_left (by norm_num) (by positivity) hsq

theorem head_loss_turb_le (Q D L : ℝ) (k : ℕ) (hk : 0 < k) (hQ : 0 < Q) (hD : 0 < D)
    (hL : 0 ≤ L) (hRe : 2000 ≤ reynolds_number Q D rhoWater muWater)
    (hA : (10 : ℝ) ^ k ≤ 0.000045 / (3.7 * D)) :
    head_loss Q D L ≤ 0.25 / (k : ℝ) ^ 2 * (L / D) *
      (Q * 4 / (Real.pi * D ^ 2) * (Q * 4 / (Real.pi * D ^ 2)) / (2 * 9.81)) := by
  rw [head_loss_pos_eq Q D L (not_le.mpr hQ), velocity_eq]
  unfold gconst
  have hf := friction_turb_le (reynolds_number Q D rhoWater muWater) D 0.000045 k hk hRe hA
  have hX : 0 ≤ L / D * (Q * 4 / (Real.pi * D ^ 2) * (Q * 4 / (Real.pi * D ^ 2)) / (2 * 9.81)) := by
    have := Real.pi_pos
    positivity
  calc friction_factor_swamee_jain (reynolds_number Q D rhoWater muWater) D 0.000045 *
        (L / D) * (Q * 4 / (Real.pi * D ^ 2) * (Q * 4 / (Real.pi * D ^ 2)) / (2 * 9.81))
      = friction_factor_swamee_jain (reynolds_number Q D rhoWater muWater) D 0.000045 *
        (L / D * (Q * 4 / (Real.pi * D ^ 2) * (Q * 4 / (Real.pi * D ^ 2)) / (2 * 9.81))) := by
        ring
    _ ≤ 0.25 / (k : ℝ) ^ 2 *
        (L / D * (Q * 4 / (Real.pi * D ^ 2) * (Q * 4 / (Real.pi * D ^ 2)) / (2 * 9.81))) :=
        mul_le_mul_of_nonneg_right hf hX
    _ = 0.25 / (k : ℝ) ^ 2 * (L / D) *
        (Q * 4 / (Real.pi * D ^ 2) * (Q * 4 / (Real.pi * D ^ 2)) / (2 * 9.81)) := by ring

/-! ### Structural lemmas for the bisection loop and the shrink search -/

theorem bisectLoop_zero (g : ℝ → ℝ) (tol a b fa : ℝ) (it : ℕ) :
    bisectLoop g tol 0 a b fa it = (a, b, it) := rfl

theorem bisectLoop_succ (g : ℝ → ℝ) (tol : ℝ) (n : ℕ) (a b fa : ℝ) (it : ℕ) :
    bisectLoop g tol (n + 1) a b fa it =
      if |g ((a + b) / 2)| < tol then (a, b, it)
      else if fa * g ((a + b) / 2) ≤ 0 then bisectLoop g tol n a ((a + b) / 2) fa (it + 1)
      else bisectLoop g tol n ((a + b) / 2) b (g ((a + b) / 2)) (it + 1) := rfl

theorem bisectLoop_it_le (g : ℝ → ℝ) (tol : ℝ) :
    ∀ (fuel : ℕ) (a b fa : ℝ) (it : ℕ),
      (bisectLoop g tol fuel a b fa it).2.2 ≤ it + fuel := by
  intro fuel
  induction fuel with
  | zero =>
    intro a b fa it
    rw [bisectLoop_zero]
    show it ≤ it + 0
    omega
  | succ n ih =>
    intro a b fa it
    rw [bisectLoop_succ]
    split_ifs with h1 h2
    · show it ≤ it + (n + 1)
      omega
    · have := ih a ((a + b) / 2) fa (it + 1)
      omega
    · have := ih ((a + b) / 2) b (g ((a + b) / 2)) (it + 1)
      omega

theorem bisectLoop_early (g : ℝ → ℝ) (tol : ℝ) :
    ∀ (fuel : ℕ) (a b fa : ℝ) (it : ℕ),
      (bisectLoop g tol fuel a b fa it).2.2 < it + fuel →
      |g (((bisectLoop g tol fuel a b fa it).1 +
           (bisectLoop g tol fuel a b fa it).2.1) / 2)| < tol := by
  intro fuel
  induction fuel with
  | zero =>
    intro a b fa it h
    rw [bisectLoop_zero] at h
    have h' : it < it + 0 := h
    omega
  | succ n ih =>
    intro a b fa it h
    rw [bisectLoop_succ] at h ⊢
    split_ifs with h1 h2
    · exact h1
    · rw [if_neg h1, if_pos h2] at h
      exact ih a ((a + b) / 2) fa (it + 1) (by omega)
    · rw [if_neg h1, if_neg h2] at h
      exact ih ((a + b) / 2) b (g ((a + b) / 2)) (it + 1) (by omega)

theorem bisectLoop_nested (g : ℝ → ℝ) (tol : ℝ) :
    ∀ (fuel : ℕ) (a b fa : ℝ) (it : ℕ), a ≤ b →
      a ≤ (bisectLoop g tol fuel a b fa it).1 ∧
      (bisectLoop g tol fuel a b fa it).1 ≤ (bisectLoop g tol fuel a b fa it).2.1 ∧
      (bisectLoop g tol fuel a b fa it).2.1 ≤ b := by
  intro fuel
  induction fuel with
  | zero =>
    intro a b fa it hab
    rw [bisectLoop_zero]
    exact ⟨le_refl a, hab, le_refl b⟩
  | succ n ih =>
    intro a b fa it hab
    have hm1 : a ≤ (a + b) / 2 := by linarith
    have hm2 : (a + b) / 2 ≤ b := by linarith
    rw [bisectLoop_succ]
    split_ifs with h1 h2
    · exact ⟨le_refl a, hab, le_refl b⟩
    · obtain ⟨u1, u2, u3⟩ := ih a ((a + b) / 2) fa (it + 1) hm1
      exact ⟨u1, u2, le_trans u3 hm2⟩
    · obtain ⟨u1, u2, u3⟩ := ih ((a + b) / 2) b (g ((a + b) / 2)) (it + 1) hm2
      exact ⟨le_trans hm1 u1, u2, u3⟩

theorem shrink_zero (g : ℝ → ℝ) (a b fa : ℝ) : shrink g 0 a b fa = none := rfl

theorem shrink_succ (g : ℝ → ℝ) (n : ℕ) (a b fa : ℝ) :
    shrink g (n + 1) a b fa =
      if fa * g (max (a + 1e-15) (b * 0.9)) ≤ 0 then
        some (max (a + 1e-15) (b * 0.9), g (max (a + 1e-15) (b * 0.9)))
      else shrink g n a (max (a + 1e-15) (b * 0.9)) fa := rfl

theorem shrink_some_bounds (g : ℝ → ℝ) :
    ∀ (n : ℕ) (a b fa b2 fb2 : ℝ), 0 ≤ a →
      shrink g n a b fa = some (b2, fb2) →
      a + 1e-15 ≤ b2 ∧ b2 ≤ max (a + 1e-15) (b * 0.9) := by
  intro n
  induction n with
  | zero =>
    intro a b fa b2 fb2 ha h
    rw [shrink_zero] at h
    cases h
  | succ n ih =>
    intro a b fa b2 fb2 ha h
    rw [shrink_succ] at h
    split_ifs at h with h1
    · have hb2 : b2 = max (a + 1e-15) (b * 0.9) := by
        injection h with h'
        injection h' with h1' h2'
        exact h1'.symm
      constructor
      · rw [hb2]; exact le_max_left _ _
      · rw [hb2]
    · obtain ⟨u1, u2⟩ := ih a (max (a + 1e-15) (b * 0.9)) fa b2 fb2 ha h
      refine ⟨u1, le_trans u2 ?_⟩
      have hx : (0 : ℝ) < a + 1e-15 := by linarith
      have hy : max (a + 1e-15) (b * 0.9) * 0.9 ≤ max (a + 1e-15) (b * 0.9) := by
        have : (0 : ℝ) ≤ max (a + 1e-15) (b * 0.9) :=
          le_trans hx.le (le_max_left _ _)
        nlinarith
      calc max (a + 1e-15) (max (a + 1e-15) (b * 0.9) * 0.9)
          ≤ max (a + 1e-15) (max (a + 1e-15) (b * 0.9)) := max_le_max (le_refl _) hy
        _ = max (a + 1e-15) (b * 0.9) := max_eq_right (le_max_left _ _)

/-! ### Case analysis of the solver's pre-loop phase -/

theorem solve_parallel_early (QT D1 L1 D2 L2 tol : ℝ) (n : ℕ) (r : FlowSplitResult)
    (h : solve_pre QT D1 L1 D2 L2 = SolverPre.early r) :
    solve_parallel QT D1 L1 D2 L2 tol n = r := by
  unfold solve_parallel
  rw [h]

theorem solve_parallel_loop (QT D1 L1 D2 L2 tol : ℝ) (n : ℕ) (a b fa : ℝ)
    (h : solve_pre QT D1 L1 D2 L2 = SolverPre.loop a b fa) :
    solve_parallel QT D1 L1 D2 L2 tol n =
      ⟨((bisectLoop (resid QT D1 L1 D2 L2) tol n a b fa 0).1 +
          (bisectLoop (resid QT D1 L1 D2 L2) tol n a b fa 0).2.1) / 2,
        QT - ((bisectLoop (resid QT D1 L1 D2 L2) tol n a b fa 0).1 +
          (bisectLoop (resid QT D1 L1 D2 L2) tol n a b fa 0).2.1) / 2,
        head_loss (((bisectLoop (resid QT D1 L1 D2 L2) tol n a b fa 0).1 +
          (bisectLoop (resid QT D1 L1 D2 L2) tol n a b fa 0).2.1) / 2) D1 L1,
        (bisectLoop (resid QT D1 L1 D2 L2) tol n a b fa 0).2.2⟩ := by
  unfold solve_parallel
  rw [h]

theorem solve_pre_early_it (QT D1 L1 D2 L2 : ℝ) (r : FlowSplitResult)
    (h : solve_pre QT D1 L1 D2 L2 = SolverPre.early r) : r.it = 0 := by
  unfold solve_pre at h
  dsimp only at h
  split_ifs at h with h1 h2 h3
  · injection h with h'
    rw [← h']
  · injection h with h'
    rw [← h']
  · rcases hs : shrink (resid QT D1 L1 D2 L2) 20 1e-12 (QT - 1e-12)
        (resid QT D1 L1 D2 L2 1e-12) with _ | ⟨b2, fb2⟩
    · simp only [hs] at h
      injection h with h'
      rw [← h']
    · simp only [hs] at h
      cases h

theorem solve_pre_early_conserv (QT D1 L1 D2 L2 : ℝ) (r : FlowSplitResult)
    (hQT : 0 < QT) (hD1 : 0 < D1) (hL1 : 0 < L1) (hD2 : 0 < D2) (hL2 : 0 < L2)
    (h : solve_pre QT D1 L1 D2 L2 = SolverPre.early r) :
    r.Q2 = QT - r.Q1 ∧ 0 < r.Q1 ∧ r.Q1 ≤ QT := by
  have hdeg : ¬ (QT ≤ 0 ∨ D1 ≤ 0 ∨ D2 ≤ 0 ∨ L1 ≤ 0 ∨ L2 ≤ 0) := by
    push_neg
    exact ⟨hQT, hD1, hD2, hL1, hL2⟩
  unfold solve_pre at h
  dsimp only at h
  rw [if_neg hdeg] at h
  split_ifs at h with h2 h3
  · injection h with h'
    rw [← h']
    refine ⟨by norm_num, hQT, le_refl QT⟩
  · rcases hs : shrink (resid QT D1 L1 D2 L2) 20 1e-12 (QT - 1e-12)
        (resid QT D1 L1 D2 L2 1e-12) with _ | ⟨b2, fb2⟩
    · simp only [hs] at h
      injection h with h'
      rw [← h']
      refine ⟨rfl, by linarith, by linarith⟩
    · simp only [hs] at h
      cases h

theorem solve_pre_loop_inv (QT D1 L1 D2 L2 a0 b0 fa0 : ℝ)
    (h : solve_pre QT D1 L1 D2 L2 = SolverPre.loop a0 b0 fa0) :
    a0 = 1e-12 ∧ 2e-12 < QT ∧ a0 < b0 ∧
      b0 ≤ max (QT - 1e-12) (1e-12 + 1e-15) := by
  unfold solve_pre at h
  dsimp only at h
  split_ifs at h with h1 h2 h3
  · rcases hs : shrink (resid QT D1 L1 D2 L2) 20 1e-12 (QT - 1e-12)
        (resid QT D1 L1 D2 L2 1e-12) with _ | ⟨b2, fb2⟩
    · simp only [hs] at h
      cases h
    · simp only [hs] at h
      injection h with e1 e2 e3
      obtain ⟨u1, u2⟩ := shrink_some_bounds (resid QT D1 L1 D2 L2) 20 1e-12 (QT - 1e-12)
        (resid QT D1 L1 D2 L2 1e-12) b2 fb2 (by norm_num) hs
      have hQT' : 2e-12 < QT := by
        push_neg at h2
        linarith
      refine ⟨e1.symm, hQT', ?_, ?_⟩
      · rw [← e1, ← e2]
        linarith
      · rw [← e2]
        refine le_trans u2 ?_
        have hmono : (QT - 1e-12) * 0.9 ≤ QT - 1e-12 := by nlinarith
        calc max (1e-12 + 1e-15) ((QT - 1e-12) * 0.9)
            ≤ max (1e-12 + 1e-15) (QT - 1e-12) := max_le_max (le_refl _) hmono
          _ = max (QT - 1e-12) (1e-12 + 1e-15) := max_comm _ _
  · injection h with e1 e2 e3
    have hQT' : 2e-12 < QT := by
      push_neg at h2
      linarith
    refine ⟨e1.symm, hQT', ?_, ?_⟩
    · rw [← e1, ← e2]
      linarith
    · rw [← e2]
      exact le_trans (by linarith) (le_max_left _ _)

theorem solve_pre_sym (QT D L : ℝ) (hQT : 2e-12 < QT) (hD : 0 < D) (hL : 0 < L) :
    solve_pre QT D L D L = SolverPre.loop 1e-12 (QT - 1e-12) (resid QT D L D L 1e-12) := by
  have hdeg : ¬ (QT ≤ 0 ∨ D ≤ 0 ∨ D ≤ 0 ∨ L ≤ 0 ∨ L ≤ 0) := by
    push_neg
    refine ⟨by linarith, hD, hD, hL, hL⟩
  have hb : ¬ (QT - 1e-12 ≤ 1e-12) := by
    intro hcon
    linarith
  have hfb : resid QT D L D L (QT - 1e-12) = - resid QT D L D L 1e-12 := by
    unfold resid
    rw [show QT - (QT - 1e-12) = 1e-12 by ring]
    ring
  have hsign : ¬ (resid QT D L D L 1e-12 * resid QT D L D L (QT - 1e-12) > 0) := by
    rw [hfb]
    intro hcon
    nlinarith [sq_nonneg (resid QT D L D L 1e-12)]
  unfold solve_pre
  dsimp only
  rw [if_neg hdeg, if_neg hb, if_neg hsign]

theorem solve_parallel_sym (QT D L tol : ℝ) (n : ℕ) (hQT : 2e-12 < QT)
    (hD : 0 < D) (hL : 0 < L) (htol : 0 < tol) :
    solve_parallel QT D L D L tol n =
      ⟨QT / 2, QT - QT / 2, head_loss (QT / 2) D L, 0⟩ := by
  have hpre := solve_pre_sym QT D L hQT hD hL
  rw [solve_parallel_loop QT D L D L tol n 1e-12 (QT - 1e-12)
    (resid QT D L D L 1e-12) hpre]
  have hmid : ((1e-12 : ℝ) + (QT - 1e-12)) / 2 = QT / 2 := by ring
  cases n with
  | zero =>
    rw [bisectLoop_zero]
    show FlowSplitResult.mk ((1e-12 + (QT - 1e-12)) / 2)
      (QT - (1e-12 + (QT - 1e-12)) / 2)
      (head_loss ((1e-12 + (QT - 1e-12)) / 2) D L) 0 = _
    rw [hmid]
  | succ m =>
    have hfm : resid QT D L D L ((1e-12 + (QT - 1e-12)) / 2) = 0 := by
      unfold resid
      rw [hmid, show QT - QT / 2 = QT / 2 by ring]
      ring
    rw [bisectLoop_succ, hfm, abs_zero, if_pos htol]
    show FlowSplitResult.mk ((1e-12 + (QT - 1e-12)) / 2)
      (QT - (1e-12 + (QT - 1e-12)) / 2)
      (head_loss ((1e-12 + (QT - 1e-12)) / 2) D L) 0 = _
    rw [hmid]

theorem reynolds_val_gen (Q D rho mu : ℝ) (hQ : 0 ≤ Q) (hD : 0 < D)
    (hrho : 0 ≤ rho) (hmu : 0 < mu) :
    reynolds_number Q D rho mu = 4 * rho * Q / (Real.pi * D * mu) := by
  unfold reynolds_number
  rw [velocity_eq]
  have hV : 0 ≤ Q * 4 / (Real.pi * D ^ 2) := by positivity
  rw [abs_of_nonneg hV, abs_of_nonneg (by positivity)]
  field_simp
  ring

theorem spec_head_loss_pos_eq (Q D L eps rho mu : ℝ) (hQ : ¬ Q ≤ 0) :
    spec_head_loss Q D L eps rho mu =
      friction_factor_swamee_jain (reynolds_number Q D rho mu) D eps *
        (L / D) * (velocity_from_Q Q D * velocity_from_Q Q D / (2 * gconst)) := by
  unfold spec_head_loss
  rw [if_neg hQ]

theorem spec_head_loss_lam (Q D L eps rho mu : ℝ) (hQ : 0 < Q) (hD : 0 < D)
    (hrho : 0 < rho) (hmu : 0 < mu)
    (hRe : reynolds_number Q D rho mu < 2000) :
    spec_head_loss Q D L eps rho mu =
      128 * mu * L * Q / (rho * Real.pi * D ^ 4 * 9.81) := by
  have hRe0 : 0 < reynolds_number Q D rho mu := by
    rw [reynolds_val_gen Q D rho mu hQ.le hD hrho.le hmu]
    positivity
  rw [spec_head_loss_pos_eq Q D L eps rho mu (not_le.mpr hQ),
    friction_lam_eq _ _ _ (not_le.mpr hRe0) hRe,
    reynolds_val_gen Q D rho mu hQ.le hD hrho.le hmu, velocity_eq]
  unfold gconst
  have hπ := Real.pi_pos
  field_simp
  ring

/-! ### Claim theorems -/

/-- C7: if `QT <= 0` or any diameter or length is nonpositive,
`solve_parallel` returns the zero result `{Q1: 0, Q2: 0, hf: 0, it: 0}`
without attempting to solve. -/
theorem c7_degenerate_zero (QT D1 L1 D2 L2 tol : ℝ) (n : ℕ)
    (h : QT ≤ 0 ∨ D1 ≤ 0 ∨ D2 ≤ 0 ∨ L1 ≤ 0 ∨ L2 ≤ 0) :
    solve_parallel QT D1 L1 D2 L2 tol n = ⟨0, 0, 0, 0⟩ := by
  have hpre : solve_pre QT D1 L1 D2 L2 = SolverPre.early ⟨0.0, 0.0, 0.0, 0⟩ := by
    unfold solve_pre
    rw [if_pos h]
  rw [solve_parallel_early QT D1 L1 D2 L2 tol n _ hpre]
  norm_num [FlowSplitResult.mk.injEq]

/-- C7 witness: `solve_parallel(0, 1, 1, 1, 1)` returns the zero result. -/
theorem c7_witness : solve_parallel 0 1 1 1 1 1e-9 100 = ⟨0, 0, 0, 0⟩ :=
  c7_degenerate_zero 0 1 1 1 1 1e-9 100 (Or.inl le_rfl)

/-- C9: the solver is total by construction and the returned iteration
count never exceeds `max_iter`, on every path (`0 ≤ it` holds since the
count is a natural number). -/
theorem c9_iterations_le (QT D1 L1 D2 L2 tol : ℝ) (n : ℕ) :
    (solve_parallel QT D1 L1 D2 L2 tol n).it ≤ n := by
  rcases hpre : solve_pre QT D1 L1 D2 L2 with r | ⟨a, b, fa⟩
  · rw [solve_parallel_early QT D1 L1 D2 L2 tol n r hpre,
      solve_pre_early_it QT D1 L1 D2 L2 r hpre]
    exact Nat.zero_le n
  · rw [solve_parallel_loop QT D1 L1 D2 L2 tol n a b fa hpre]
    show (bisectLoop (resid QT D1 L1 D2 L2) tol n a b fa 0).2.2 ≤ n
    have := bisectLoop_it_le (resid QT D1 L1 D2 L2) tol n a b fa 0
    omega

/-- C2: for valid inputs the two returned flows conserve the total:
`Q2 = QT - Q1` on every return path, hence `|Q1 + Q2 - QT| < 1e-6 * QT`. -/
theorem c2_conservation (QT D1 L1 D2 L2 tol : ℝ) (n : ℕ) (hQT : 0 < QT)
    (hD1 : 0 < D1) (hL1 : 0 < L1) (hD2 : 0 < D2) (hL2 : 0 < L2) :
    (solve_parallel QT D1 L1 D2 L2 tol n).Q2 =
      QT - (solve_parallel QT D1 L1 D2 L2 tol n).Q1 ∧
    |(solve_parallel QT D1 L1 D2 L2 tol n).Q1 +
      (solve_parallel QT D1 L1 D2 L2 tol n).Q2 - QT| < 1e-6 * QT := by
  have hkey : (solve_parallel QT D1 L1 D2 L2 tol n).Q2 =
      QT - (solve_parallel QT D1 L1 D2 L2 tol n).Q1 := by
    rcases hpre : solve_pre QT D1 L1 D2 L2 with r | ⟨a, b, fa⟩
    · rw [solve_parallel_early QT D1 L1 D2 L2 tol n r hpre]
      exact (solve_pre_early_conserv QT D1 L1 D2 L2 r hQT hD1 hL1 hD2 hL2 hpre).1
    · rw [solve_parallel_loop QT D1 L1 D2 L2 tol n a b fa hpre]
  refine ⟨hkey, ?_⟩
  rw [hkey, show (solve_parallel QT D1 L1 D2 L2 tol n).Q1 +
    (QT - (solve_parallel QT D1 L1 D2 L2 tol n).Q1) - QT = 0 by ring, abs_zero]
  positivity

/-- C2 witness: conservation at the concrete input `QT = 1`, unit pipes. -/
theorem c2_witness :
    |(solve_parallel 1 1 1 1 1 1e-9 100).Q1 +
      (solve_parallel 1 1 1 1 1 1e-9 100).Q2 - 1| < 1e-6 * 1 :=
  (c2_conservation 1 1 1 1 1 1e-9 100 one_pos one_pos one_pos one_pos one_pos).2

/-- C6 amended: for identical branches and `QT > 2e-12` (so that the
bisection bracket is nonempty) and positive tolerance, the solver returns
exactly `Q1 = Q2 = QT / 2`: the first midpoint is `QT / 2` where the
residual is exactly zero. -/
theorem c6_amended (QT D L tol : ℝ) (n : ℕ) (hQT : 2e-12 < QT) (hD : 0 < D)
    (hL : 0 < L) (htol : 0 < tol) :
    (solve_parallel QT D L D L tol n).Q1 = QT / 2 ∧
    (solve_parallel QT D L D L tol n).Q2 = QT / 2 := by
  rw [solve_parallel_sym QT D L tol n hQT hD hL htol]
  refine ⟨rfl, ?_⟩
  show QT - QT / 2 = QT / 2
  ring

/-- C6 witness: identical unit branches with `QT = 1` split exactly in half. -/
theorem c6_witness :
    (solve_parallel 1 1 1 1 1 1e-9 100).Q1 = 1 / 2 ∧
    (solve_parallel 1 1 1 1 1 1e-9 100).Q2 = 1 / 2 :=
  c6_amended 1 1 1 1e-9 100 (by norm_num) one_pos one_pos (by norm_num)

/-- C6 counterexample: for `QT = 1e-12 > 0` the claim fails: the bracket
degenerates (`QT - 1e-12 <= 1e-12`), all flow is routed to branch 1, and
the result is `Q1 = QT`, `Q2 = 0`, not `Q1 = Q2 = QT / 2`. -/
theorem c6_counterexample :
    (0 : ℝ) < 1e-12 ∧
    (solve_parallel 1e-12 1 1 1 1 1e-9 100).Q1 = 1e-12 ∧
    (solve_parallel 1e-12 1 1 1 1 1e-9 100).Q2 = 0 ∧
    (solve_parallel 1e-12 1 1 1 1 1e-9 100).Q1 ≠ 1e-12 / 2 ∧
    (solve_parallel 1e-12 1 1 1 1 1e-9 100).Q1 ≠
      (solve_parallel 1e-12 1 1 1 1 1e-9 100).Q2 := by
  have hpre : solve_pre 1e-12 1 1 1 1 =
      SolverPre.early ⟨1e-12, 0.0, head_loss 1e-12 1 1, 0⟩ := by
    unfold solve_pre
    dsimp only
    rw [if_neg (by norm_num), if_pos (by norm_num)]
  rw [solve_parallel_early 1e-12 1 1 1 1 1e-9 100 _ hpre]
  refine ⟨by norm_num, rfl, by show (0.0 : ℝ) = 0; norm_num, ?_, ?_⟩
  · show (1e-12 : ℝ) ≠ 1e-12 / 2
    norm_num
  · show (1e-12 : ℝ) ≠ 0.0
    norm_num

/-- C5 amended: `head_loss(Q, D, L)` takes no roughness or fluid-property
arguments; it equals the specified six-argument `headLoss` instantiated at
the module constants `eps = 0.000045`, `rho = 998.0`, `mu = 0.001002`
(not at caller-supplied values). -/
theorem c5_amended (Q D L : ℝ) :
    head_loss Q D L = spec_head_loss Q D L 0.000045 rhoWater muWater := rfl

/-- C5 counterexample: `head_loss` does not depend on caller-supplied
fluid properties: at `Q = 1e-9`, `D = L = 1` and a doubled viscosity
`mu = 0.002004` the specified six-argument function differs from the
source's `head_loss`. -/
theorem c5_counterexample :
    head_loss 1e-9 1 1 ≠ spec_head_loss 1e-9 1 1 0.000045 998.0 0.002004 := by
  have hπ3 := Real.pi_gt_three
  have hπ := Real.pi_pos
  have hRe1 : reynolds_number 1e-9 1 rhoWater muWater < 2000 := by
    rw [reynolds_val 1e-9 1 (by norm_num) one_pos]
    rw [div_lt_iff (by positivity)]
    nlinarith
  have hRe2 : reynolds_number 1e-9 1 998.0 0.002004 < 2000 := by
    rw [reynolds_val_gen 1e-9 1 998.0 0.002004 (by norm_num) one_pos (by norm_num)
      (by norm_num)]
    rw [div_lt_iff (by positivity)]
    nlinarith
  rw [head_loss_lam 1e-9 1 1 (by norm_num) one_pos hRe1]
  rw [spec_head_loss_lam 1e-9 1 1 0.000045 998.0 0.002004 (by norm_num) one_pos
    (by norm_num) (by norm_num) hRe2]
  have hlt : 128 * 0.001002 * 1 * 1e-9 / (998 * Real.pi * (1:ℝ) ^ 4 * 9.81) <
      128 * 0.002004 * 1 * 1e-9 / (998.0 * Real.pi * (1:ℝ) ^ 4 * 9.81) := by
    have hd : (0:ℝ) < 998 * Real.pi * (1:ℝ) ^ 4 * 9.81 := by positivity
    rw [show (998.0 : ℝ) * Real.pi * (1:ℝ) ^ 4 * 9.81 =
      998 * Real.pi * (1:ℝ) ^ 4 * 9.81 by norm_num]
    rw [div_lt_div_iff hd hd]
    nlinarith
  exact ne_of_lt hlt

/-- C4: the friction factor is regime-dependent exactly as specified with
no smoothing: sentinel `1e6` for `Re <= 0`, the laminar form `64/Re` for
`0 < Re < 2000`, and for `2000 <= Re` the Swamee-Jain value, whose
`log10` argument is replaced by `1e-12` exactly when it is nonpositive. -/
theorem c4_regime_cases (Re D eps : ℝ) :
    (Re ≤ 0 → friction_factor_swamee_jain Re D eps = 1e6) ∧
    (0 < Re → Re < 2000 → friction_factor_swamee_jain Re D eps = 64.0 / Re) ∧
    (2000 ≤ Re → 0 < eps / (3.7 * D) + 5.74 / Re ^ (0.9 : ℝ) →
      friction_factor_swamee_jain Re D eps =
        0.25 / (Real.logb 10 (eps / (3.7 * D) + 5.74 / Re ^ (0.9 : ℝ))) ^ 2) ∧
    (2000 ≤ Re → eps / (3.7 * D) + 5.74 / Re ^ (0.9 : ℝ) ≤ 0 →
      friction_factor_swamee_jain Re D eps = 0.25 / (Real.logb 10 1e-12) ^ 2) := by
  refine ⟨?_, ?_, ?_, ?_⟩
  · intro h
    unfold friction_factor_swamee_jain
    rw [if_pos h]
  · intro h0 h1
    exact friction_lam_eq Re D eps (not_le.mpr h0) h1
  · intro h1 h2
    rw [friction_turb_eq Re D eps (not_le.mpr (lt_of_lt_of_le (by norm_num) h1))
      (not_lt.mpr h1)]
    have : clampedArg Re D eps = eps / (3.7 * D) + 5.74 / Re ^ (0.9 : ℝ) := by
      unfold clampedArg
      dsimp only
      rw [if_neg (not_le.mpr h2)]
    rw [this]
  · intro h1 h2
    rw [friction_turb_eq Re D eps (not_le.mpr (lt_of_lt_of_le (by norm_num) h1))
      (not_lt.mpr h1)]
    have : clampedArg Re D eps = 1e-12 := by
      unfold clampedArg
      dsimp only
      rw [if_pos h2]
    rw [this]

/-- C4 witness: `Re = 1999` uses the laminar form, `Re = -1` the sentinel,
and `Re = 2001` the Swamee-Jain form with the unclamped argument. -/
theorem c4_witness :
    friction_factor_swamee_jain 1999 1 0.000045 = 64.0 / 1999 ∧
    friction_factor_swamee_jain (-1) 1 0.000045 = 1e6 ∧
    friction_factor_swamee_jain 2001 1 0.000045 =
      0.25 / (Real.logb 10 (0.000045 / (3.7 * 1) + 5.74 / (2001 : ℝ) ^ (0.9 : ℝ))) ^ 2 := by
  have hpos : (0:ℝ) < 0.000045 / (3.7 * 1) + 5.74 / (2001 : ℝ) ^ (0.9 : ℝ) := by
    have := Real.rpow_pos_of_pos (show (0:ℝ) < 2001 by norm_num) (0.9 : ℝ)
    positivity
  exact ⟨(c4_regime_cases 1999 1 0.000045).2.1 (by norm_num) (by norm_num),
    (c4_regime_cases (-1) 1 0.000045).1 (by norm_num),
    (c4_regime_cases 2001 1 0.000045).2.2.1 (by norm_num) hpos⟩

/-- C1 amended: whenever the result is produced by the bisection loop
(the pre-phase hands over a bracket) and the returned iteration count is
strictly below `max_iter`, the loop stopped at the tolerance test, so the
two branch head losses at the returned split differ by less than `tol`. -/
theorem c1_amended (QT D1 L1 D2 L2 tol : ℝ) (n : ℕ) (a0 b0 fa0 : ℝ)
    (hpre : solve_pre QT D1 L1 D2 L2 = SolverPre.loop a0 b0 fa0)
    (hit : (solve_parallel QT D1 L1 D2 L2 tol n).it < n) :
    |head_loss (solve_parallel QT D1 L1 D2 L2 tol n).Q1 D1 L1 -
      head_loss (solve_parallel QT D1 L1 D2 L2 tol n).Q2 D2 L2| < tol := by
  rw [solve_parallel_loop QT D1 L1 D2 L2 tol n a0 b0 fa0 hpre] at hit ⊢
  have hit' : (bisectLoop (resid QT D1 L1 D2 L2) tol n a0 b0 fa0 0).2.2 < 0 + n := by
    have : (bisectLoop (resid QT D1 L1 D2 L2) tol n a0 b0 fa0 0).2.2 < n := hit
    omega
  have hbrk := bisectLoop_early (resid QT D1 L1 D2 L2) tol n a0 b0 fa0 0 hit'
  unfold resid at hbrk
  exact hbrk

/-- C1 witness: the symmetric case reaches the loop and converges at the
first midpoint with zero residual. -/
theorem c1_witness :
    |head_loss (solve_parallel 1 1 1 1 1 1e-9 100).Q1 1 1 -
      head_loss (solve_parallel 1 1 1 1 1 1e-9 100).Q2 1 1| < 1e-9 := by
  apply c1_amended 1 1 1 1 1 1e-9 100 1e-12 (1 - 1e-12) (resid 1 1 1 1 1 1e-12)
  · exact solve_pre_sym 1 1 1 (by norm_num) one_pos one_pos
  · rw [solve_parallel_sym 1 1 1 1e-9 100 (by norm_num) one_pos one_pos (by norm_num)]
    show (0 : ℕ) < 100
    norm_num

/-- C1 counterexample: at `QT = 1e-12` (all inputs positive) the solver
takes the degenerate-bracket short circuit, returns `it = 0 < max_iter`,
yet the two branch head losses differ by at least `tol = 1e-30`: the head
loss of branch 1 at full flow is positive and far above `1e-30`. -/
theorem c1_counterexample :
    (0 : ℝ) < 1e-12 ∧
    (solve_parallel 1e-12 1 1 1 1 1e-30 100).it < 100 ∧
    ¬ (|head_loss (solve_parallel 1e-12 1 1 1 1 1e-30 100).Q1 1 1 -
        head_loss (solve_parallel 1e-12 1 1 1 1 1e-30 100).Q2 1 1| < 1e-30) := by
  have hpre : solve_pre 1e-12 1 1 1 1 =
      SolverPre.early ⟨1e-12, 0.0, head_loss 1e-12 1 1, 0⟩ := by
    unfold solve_pre
    dsimp only
    rw [if_neg (by norm_num), if_pos (by norm_num)]
  rw [solve_parallel_early 1e-12 1 1 1 1 1e-30 100 _ hpre]
  refine ⟨by norm_num, by show (0 : ℕ) < 100; norm_num, ?_⟩
  show ¬ (|head_loss 1e-12 1 1 - head_loss 0.0 1 1| < 1e-30)
  have h0 : head_loss 0.0 1 1 = 0 := by
    unfold head_loss
    rw [if_pos (by norm_num)]
    norm_num
  have hπ3 := Real.pi_gt_three
  have hπ4 := Real.pi_lt_315
  have hRe : reynolds_number 1e-12 1 rhoWater muWater < 2000 := by
    rw [reynolds_val 1e-12 1 (by norm_num) one_pos]
    rw [div_lt_iff (by positivity)]
    nlinarith
  rw [h0, head_loss_lam 1e-12 1 1 (by norm_num) one_pos hRe, sub_zero,
    abs_of_nonneg (by positivity)]
  push_neg
  rw [le_div_iff (by positivity)]
  nlinarith

/-- C3 amended: the head loss is strictly increasing in the flow rate as
long as the larger flow is still laminar (`Re < 2000`); across the regime
switch monotonicity can fail (see the counterexample). -/
theorem c3_amended (Qa Qb D L : ℝ) (h0 : 0 < Qa) (hab : Qa < Qb) (hD : 0 < D)
    (hL : 0 < L) (hRe : reynolds_number Qb D rhoWater muWater < 2000) :
    head_loss Qa D L < head_loss Qb D L := by
  have hπ := Real.pi_pos
  have hReM : reynolds_number Qa D rhoWater muWater <
      reynolds_number Qb D rhoWater muWater := by
    rw [reynolds_val Qa D h0.le hD, reynolds_val Qb D (by linarith) hD]
    rw [div_lt_div_right (by positivity)]
    linarith
  have hReA : reynolds_number Qa D rhoWater muWater < 2000 := lt_trans hReM hRe
  rw [head_loss_lam Qa D L h0 hD hReA, head_loss_lam Qb D L (by linarith) hD hRe]
  rw [div_lt_div_right (by positivity)]
  nlinarith

/-- C3 witness: laminar monotonicity at `Qa = 1e-12 < Qb = 2e-12`, unit pipe. -/
theorem c3_witness :
    (0 : ℝ) < 1e-12 ∧ (1e-12 : ℝ) < 2e-12 ∧
    head_loss 1e-12 1 1 < head_loss 2e-12 1 1 := by
  have hπ3 := Real.pi_gt_three
  have hRe : reynolds_number 2e-12 1 rhoWater muWater < 2000 := by
    rw [reynolds_val 2e-12 1 (by norm_num) one_pos]
    rw [div_lt_iff (by positivity)]
    nlinarith
  exact ⟨by norm_num, by norm_num,
    c3_amended 1e-12 2e-12 1 1 (by norm_num) (by norm_num) one_pos one_pos hRe⟩

theorem QaC_pos : 0 < QaC := by
  unfold QaC
  positivity

theorem QbC_pos : 0 < QbC := by
  unfold QbC
  positivity

theorem reynolds_QaC : reynolds_number QaC 1e-8 rhoWater muWater = 1999 := by
  rw [reynolds_val QaC 1e-8 QaC_pos.le (by norm_num)]
  unfold QaC
  have hπ := Real.pi_ne_zero
  field_simp
  ring

theorem reynolds_QbC : reynolds_number QbC 1e-8 rhoWater muWater = 2001 := by
  rw [reynolds_val QbC 1e-8 QbC_pos.le (by norm_num)]
  unfold QbC
  have hπ := Real.pi_ne_zero
  field_simp
  ring

theorem head_loss_QaC :
    head_loss QaC 1e-8 1 =
      128 * 0.001002 ^ 2 * 1999 * 1e-8 / (3992 * 998 * ((1e-8 : ℝ)) ^ 4 * 9.81) := by
  rw [head_loss_lam QaC 1e-8 1 QaC_pos (by norm_num) (by rw [reynolds_QaC]; norm_num)]
  unfold QaC
  have hπ := Real.pi_ne_zero
  field_simp
  ring

theorem velocity_QbC :
    QbC * 4 / (Real.pi * ((1e-8 : ℝ)) ^ 2) = 2001 * 0.001002 / (998 * 1e-8) := by
  unfold QbC
  have hπ := Real.pi_ne_zero
  field_simp
  ring

/-- C3 counterexample: with `D = 1e-8`, `L = 1` the relative roughness is
so large that the friction factor drops by more than a factor of two at
the laminar/turbulent switch: the flows `QaC < QbC` with Reynolds numbers
1999 and 2001 give `head_loss QbC < head_loss QaC`, refuting strict
monotonicity across the regime boundary. -/
theorem c3_counterexample :
    0 < QaC ∧ QaC < QbC ∧ (0 : ℝ) < 1e-8 ∧ (0 : ℝ) < 1 ∧
    head_loss QbC 1e-8 1 < head_loss QaC 1e-8 1 := by
  refine ⟨QaC_pos, ?_, by norm_num, by norm_num, ?_⟩
  · unfold QaC QbC
    rw [div_lt_div_right (by norm_num)]
    nlinarith [Real.pi_pos]
  · have hb_le := head_loss_turb_le QbC 1e-8 1 3 (by norm_num) QbC_pos (by norm_num)
      (by norm_num) (by rw [reynolds_QbC]; norm_num) (by norm_num)
    rw [velocity_QbC] at hb_le
    refine lt_of_le_of_lt hb_le ?_
    rw [head_loss_QaC]
    norm_num

theorem pi_sq_gt : (9.8596 : ℝ) < Real.pi ^ 2 := by
  nlinarith [Real.pi_gt_d2, Real.pi_pos]

theorem pi_sq_lt : Real.pi ^ 2 < (9.8697 : ℝ) := by
  nlinarith [Real.pi_lt_d4, Real.pi_pos]

theorem pi_pow4_gt : (97 : ℝ) < Real.pi ^ 4 := by
  nlinarith [pi_sq_gt, Real.pi_pos, sq_nonneg (Real.pi ^ 2)]

theorem pi_pow4_lt : Real.pi ^ 4 < (97.5 : ℝ) := by
  nlinarith [pi_sq_lt, pi_sq_gt, Real.pi_pos]

theorem D1C_pos : 0 < D1C := by
  unfold D1C
  positivity

theorem reynolds_D1C (Q : ℝ) (hQ : 0 ≤ Q) :
    reynolds_number Q D1C rhoWater muWater = Q * 2000 / 1.0008e-12 := by
  rw [reynolds_val Q D1C hQ D1C_pos]
  unfold D1C
  have hπ := Real.pi_ne_zero
  field_simp
  ring

theorem head_loss_D1C_lam (Q : ℝ) (hQ : 0 < Q)
    (hRe : reynolds_number Q D1C rhoWater muWater < 2000) :
    head_loss Q D1C 1 =
      128 * 0.001002 * Q * 2.004 ^ 4 * Real.pi ^ 3 /
        (998 * 9.81 * (3992 * 1.0008e-12) ^ 4) := by
  rw [head_loss_lam Q D1C 1 hQ D1C_pos hRe]
  unfold D1C
  have hπ := Real.pi_ne_zero
  field_simp
  ring

theorem re2_small (Q : ℝ) (h0 : 0 ≤ Q) (h1 : Q ≤ 2e-12) :
    reynolds_number Q 1 rhoWater muWater < 2000 := by
  rw [reynolds_val Q 1 h0 one_pos]
  rw [div_lt_iff (by positivity)]
  nlinarith [Real.pi_gt_three]

theorem c10_resid_a_pos :
    0 < resid 2.0005e-12 D1C 1 1 4.3e36 1e-12 := by
  unfold resid
  rw [show (2.0005e-12 : ℝ) - 1e-12 = 1.0005e-12 by norm_num]
  rw [head_loss_D1C_lam 1e-12 (by norm_num)
    (by rw [reynolds_D1C 1e-12 (by norm_num)]; norm_num)]
  rw [head_loss_lam 1.0005e-12 1 4.3e36 (by norm_num) one_pos
    (re2_small 1.0005e-12 (by norm_num) (by norm_num))]
  rw [sub_pos, div_lt_div_iff (by positivity) (by positivity)]
  nlinarith [pi_pow4_gt, Real.pi_pos, pi_sq_gt]

theorem c10_resid_b_pos :
    0 < resid 2.0005e-12 D1C 1 1 4.3e36 (2.0005e-12 - 1e-12) := by
  unfold resid
  rw [show (2.0005e-12 : ℝ) - 1e-12 = 1.0005e-12 by norm_num,
    show (2.0005e-12 : ℝ) - 1.0005e-12 = 1e-12 by norm_num]
  rw [head_loss_D1C_lam 1.0005e-12 (by norm_num)
    (by rw [reynolds_D1C 1.0005e-12 (by norm_num)]; norm_num)]
  rw [head_loss_lam 1e-12 1 4.3e36 (by norm_num) one_pos
    (re2_small 1e-12 (by norm_num) (by norm_num))]
  rw [sub_pos, div_lt_div_iff (by positivity) (by positivity)]
  nlinarith [pi_pow4_gt, Real.pi_pos, pi_sq_gt]

theorem c10_termA_large : (10 : ℝ) ^ 4 ≤ 0.000045 / (3.7 * D1C) := by
  unfold D1C
  rw [show (0.000045 : ℝ) / (3.7 * (3992 * 1.0008e-12 / (2.004 * Real.pi))) =
      0.000045 * 2.004 * Real.pi / (3.7 * (3992 * 1.0008e-12)) from by
    have hπ := Real.pi_ne_zero
    field_simp
    ring]
  rw [le_div_iff (by positivity)]
  nlinarith [Real.pi_gt_three]

theorem c10_resid_b1_nonpos :
    resid 2.0005e-12 D1C 1 1 4.3e36 1.001e-12 ≤ 0 := by
  unfold resid
  rw [show (2.0005e-12 : ℝ) - 1.001e-12 = 0.9995e-12 by norm_num, sub_nonpos]
  have hRe : 2000 ≤ reynolds_number 1.001e-12 D1C rhoWater muWater := by
    rw [reynolds_D1C 1.001e-12 (by norm_num)]
    rw [le_div_iff (by norm_num)]
    norm_num
  have hb := head_loss_turb_le 1.001e-12 D1C 1 4 (by norm_num) (by norm_num) D1C_pos
    (by norm_num) hRe c10_termA_large
  refine le_trans hb ?_
  rw [head_loss_lam 0.9995e-12 1 4.3e36 (by norm_num) one_pos
    (re2_small 0.9995e-12 (by norm_num) (by norm_num))]
  have hBeq : 0.25 / ((4 : ℕ) : ℝ) ^ 2 * (1 / D1C) *
      (1.001e-12 * 4 / (Real.pi * D1C ^ 2) * (1.001e-12 * 4 / (Real.pi * D1C ^ 2)) /
        (2 * 9.81)) =
      0.25 * (1.001e-12) ^ 2 * 2.004 ^ 5 * Real.pi ^ 3 /
        (19.62 * (3992 * 1.0008e-12) ^ 5) := by
    unfold D1C
    have hπ := Real.pi_ne_zero
    push_cast
    field_simp
    ring
  rw [hBeq, div_le_div_iff (by positivity) (by positivity)]
  nlinarith [pi_pow4_lt, Real.pi_pos, pi_sq_lt, pi_sq_gt]

theorem c10_pre :
    solve_pre 2.0005e-12 D1C 1 1 4.3e36 =
      SolverPre.loop 1e-12 1.001e-12 (resid 2.0005e-12 D1C 1 1 4.3e36 1e-12) := by
  have hdeg : ¬ ((2.0005e-12 : ℝ) ≤ 0 ∨ D1C ≤ 0 ∨ (1 : ℝ) ≤ 0 ∨ (1 : ℝ) ≤ 0 ∨
      (4.3e36 : ℝ) ≤ 0) := by
    push_neg
    exact ⟨by norm_num, D1C_pos, by norm_num, by norm_num, by norm_num⟩
  unfold solve_pre
  dsimp only
  rw [if_neg hdeg,
    if_neg (show ¬ ((2.0005e-12 : ℝ) - 1e-12 ≤ 1e-12) from by norm_num),
    if_pos (mul_pos c10_resid_a_pos c10_resid_b_pos)]
  rw [show (20 : ℕ) = 19 + 1 from rfl, shrink_succ]
  rw [show max ((1e-12 : ℝ) + 1e-15) ((2.0005e-12 - 1e-12) * 0.9) = 1.001e-12 from by
    rw [max_eq_left (by norm_num)]
    norm_num]
  rw [if_pos (mul_nonpos_of_nonneg_of_nonpos c10_resid_a_pos.le c10_resid_b1_nonpos)]

/-- C10 counterexample: at `QT = 2.0005e-12` with an extreme geometry
mismatch (branch 1: tiny diameter `D1C`, branch 2: unit diameter with a
huge length), both initial residuals are positive, the shrink search fires
and its very first step sets `b = max(a + 1e-15, 0.9 b) = 1.001e-12`,
which exceeds `QT - 1e-12 = 1.0005e-12`: the bisection loop starts on a
bracket that is not inside `[1e-12, QT - 1e-12]`. -/
theorem c10_counterexample :
    (0 : ℝ) < 2.0005e-12 ∧ 0 < D1C ∧ (0 : ℝ) < 1 ∧ (0 : ℝ) < 4.3e36 ∧
    (solve_pre 2.0005e-12 D1C 1 1 4.3e36).loopBracket = some (1e-12, 1.001e-12) ∧
    (2.0005e-12 : ℝ) - 1e-12 < 1.001e-12 := by
  have hlast : (2.0005e-12 : ℝ) - 1e-12 < 1.001e-12 := by norm_num
  refine ⟨by norm_num, D1C_pos, by norm_num, by norm_num, ?_, hlast⟩
  rw [c10_pre]
  rfl

/-- C10 amended: for positive inputs, every return path gives
`0 < Q1 <= QT`, `Q2 = QT - Q1` (so `0 <= Q2 < QT`), and whenever the
bisection loop is reached its entry bracket `(a0, b0)` satisfies
`1e-12 <= a0 < b0 <= max (QT - 1e-12) (1e-12 + 1e-15)` — the second bound,
not `QT - 1e-12`, because the shrink step `b = max(a + 1e-15, 0.9 b)` can
push `b` just above `QT - 1e-12` when `QT < 2e-12 + 1e-15` — all later
brackets stay nested inside it, and the returned `Q1` lies in it. -/
theorem c10_amended (QT D1 L1 D2 L2 tol : ℝ) (n : ℕ) (hQT : 0 < QT)
    (hD1 : 0 < D1) (hL1 : 0 < L1) (hD2 : 0 < D2) (hL2 : 0 < L2) :
    (0 < (solve_parallel QT D1 L1 D2 L2 tol n).Q1 ∧
      (solve_parallel QT D1 L1 D2 L2 tol n).Q1 ≤ QT ∧
      (solve_parallel QT D1 L1 D2 L2 tol n).Q2 =
        QT - (solve_parallel QT D1 L1 D2 L2 tol n).Q1 ∧
      0 ≤ (solve_parallel QT D1 L1 D2 L2 tol n).Q2 ∧
      (solve_parallel QT D1 L1 D2 L2 tol n).Q2 < QT) ∧
    (∀ a0 b0 fa0 : ℝ, solve_pre QT D1 L1 D2 L2 = SolverPre.loop a0 b0 fa0 →
      1e-12 ≤ a0 ∧ a0 < b0 ∧ b0 ≤ max (QT - 1e-12) (1e-12 + 1e-15) ∧
      a0 ≤ (solve_parallel QT D1 L1 D2 L2 tol n).Q1 ∧
      (solve_parallel QT D1 L1 D2 L2 tol n).Q1 ≤ b0) := by
  rcases hpre : solve_pre QT D1 L1 D2 L2 with r | ⟨a, b, fa⟩
  · obtain ⟨e, hp, hle⟩ :=
      solve_pre_early_conserv QT D1 L1 D2 L2 r hQT hD1 hL1 hD2 hL2 hpre
    rw [solve_parallel_early QT D1 L1 D2 L2 tol n r hpre]
    refine ⟨⟨hp, hle, e, by rw [e]; linarith, by rw [e]; linarith⟩, ?_⟩
    intro a0 b0 fa0 hcon
    cases hcon
  · obtain ⟨ea, hQT2, hab, hbmax⟩ := solve_pre_loop_inv QT D1 L1 D2 L2 a b fa hpre
    obtain ⟨u1, u2, u3⟩ :=
      bisectLoop_nested (resid QT D1 L1 D2 L2) tol n a b fa 0 hab.le
    rw [solve_parallel_loop QT D1 L1 D2 L2 tol n a b fa hpre]
    have hmax_lt : max (QT - 1e-12) (1e-12 + 1e-15) < QT :=
      max_lt (by linarith) (by linarith)
    have hQ1a : a ≤ ((bisectLoop (resid QT D1 L1 D2 L2) tol n a b fa 0).1 +
        (bisectLoop (resid QT D1 L1 D2 L2) tol n a b fa 0).2.1) / 2 := by
      linarith
    have hQ1b : ((bisectLoop (resid QT D1 L1 D2 L2) tol n a b fa 0).1 +
        (bisectLoop (resid QT D1 L1 D2 L2) tol n a b fa 0).2.1) / 2 ≤ b := by
      linarith
    have ha0 : (0 : ℝ) < a := by
      rw [ea]
      norm_num
    have hQ1pos : 0 < ((bisectLoop (resid QT D1 L1 D2 L2) tol n a b fa 0).1 +
        (bisectLoop (resid QT D1 L1 D2 L2) tol n a b fa 0).2.1) / 2 :=
      lt_of_lt_of_le ha0 hQ1a
    have hQ1le : ((bisectLoop (resid QT D1 L1 D2 L2) tol n a b fa 0).1 +
        (bisectLoop (resid QT D1 L1 D2 L2) tol n a b fa 0).2.1) / 2 ≤ QT :=
      le_trans hQ1b (le_trans hbmax hmax_lt.le)
    refine ⟨⟨hQ1pos, hQ1le, rfl, ?_, ?_⟩, ?_⟩
    · show (0 : ℝ) ≤ QT - _
      linarith
    · show QT - _ < QT
      linarith
    · intro a0 b0 fa0 hcon
      injection hcon with e1 e2 e3
      refine ⟨by rw [← e1, ea], by rw [← e1, ← e2]; exact hab,
        by rw [← e2]; exact hbmax, ?_, ?_⟩
      · rw [← e1]
        exact hQ1a
      · rw [← e2]
        exact hQ1b

/-- C10 witness: the amended invariants at `QT = 1` and unit pipes. -/
theorem c10_witness :
    (0 < (solve_parallel 1 1 1 1 1 1e-9 100).Q1 ∧
      (solve_parallel 1 1 1 1 1 1e-9 100).Q1 ≤ 1 ∧
      (solve_parallel 1 1 1 1 1 1e-9 100).Q2 =
        1 - (solve_parallel 1 1 1 1 1 1e-9 100).Q1 ∧
      0 ≤ (solve_parallel 1 1 1 1 1 1e-9 100).Q2 ∧
      (solve_parallel 1 1 1 1 1 1e-9 100).Q2 < 1) ∧
    (∀ a0 b0 fa0 : ℝ, solve_pre 1 1 1 1 1 = SolverPre.loop a0 b0 fa0 →
      1e-12 ≤ a0 ∧ a0 < b0 ∧ b0 ≤ max (1 - 1e-12) (1e-12 + 1e-15) ∧
      a0 ≤ (solve_parallel 1 1 1 1 1 1e-9 100).Q1 ∧
      (solve_parallel 1 1 1 1 1 1e-9 100).Q1 ≤ b0) :=
  c10_amended 1 1 1 1 1 1e-9 100 one_pos one_pos one_pos one_pos one_pos

/-! ### Equivalence of the raising-division model with the total model -/

theorem divE_ne (x y : ℝ) (h : y ≠ 0) : divE x y = some (x / y) := by
  unfold divE
  rw [if_neg h]

theorem divE_zero (x : ℝ) : divE x 0 = none := by
  unfold divE
  rw [if_pos rfl]

theorem area_ne_zero (D : ℝ) (hD : D ≠ 0) : area D ≠ 0 := by
  unfold area
  exact div_ne_zero (mul_ne_zero Real.pi_ne_zero (pow_ne_zero 2 hD)) (by norm_num)

theorem reynoldsE_eq (Q D rho mu : ℝ) (hD : D ≠ 0) (hmu : mu ≠ 0) :
    reynoldsE Q D rho mu = some (reynolds_number Q D rho mu) := by
  unfold reynoldsE reynolds_number velocity_from_Q
  rw [divE_ne Q (area D) (area_ne_zero D hD)]
  simp only [Option.some_bind]
  rw [divE_ne _ mu hmu]
  simp only [Option.map_some']

theorem frictionE_eq (Re D eps : ℝ) (hD : D ≠ 0)
    (hcl : 2000 ≤ Re → clampedArg Re D eps ≠ 1) :
    frictionE Re D eps = some (friction_factor_swamee_jain Re D eps) := by
  unfold frictionE friction_factor_swamee_jain
  by_cases hRe0 : Re ≤ 0
  · rw [if_pos hRe0, if_pos hRe0]
  by_cases hRe2 : Re < 2000
  · rw [if_neg hRe0, if_neg hRe0, if_pos hRe2, if_pos hRe2,
      divE_ne 64.0 Re (fun hcon => hRe0 (le_of_eq hcon))]
  rw [if_neg hRe0, if_neg hRe0, if_neg hRe2, if_neg hRe2]
  have hRe : (0 : ℝ) < Re := lt_of_not_le hRe0
  have h37 : (3.7 : ℝ) * D ≠ 0 := mul_ne_zero (by norm_num) hD
  have hrp : Re ^ (0.9 : ℝ) ≠ 0 := ne_of_gt (Real.rpow_pos_of_pos hRe _)
  rw [divE_ne eps (3.7 * D) h37, divE_ne 5.74 (Re ^ (0.9 : ℝ)) hrp]
  have hterm2 : (if eps / (3.7 * D) + 5.74 / Re ^ (0.9 : ℝ) ≤ 0 then (1e-12 : ℝ)
      else eps / (3.7 * D) + 5.74 / Re ^ (0.9 : ℝ)) = clampedArg Re D eps := rfl
  have hterm2_pos : 0 < clampedArg Re D eps := by
    unfold clampedArg
    dsimp only
    split_ifs with hcon
    · norm_num
    · exact lt_of_not_le hcon
  have hlogb : Real.logb 10 (clampedArg Re D eps) ≠ 0 := by
    intro hcon
    rcases Real.logb_eq_zero.mp hcon with h | h | h | h | h | h
    · norm_num at h
    · norm_num at h
    · norm_num at h
    · exact (ne_of_gt hterm2_pos) h
    · exact hcl (le_of_not_lt hRe2) h
    · linarith [hterm2_pos]
  show ((divE 0.25 ((Real.logb 10 (if eps / (3.7 * D) + 5.74 / Re ^ (0.9 : ℝ) ≤ 0
      then (1e-12 : ℝ) else eps / (3.7 * D) + 5.74 / Re ^ (0.9 : ℝ))) ^ 2)) : Option ℝ) = _
  rw [hterm2, divE_ne 0.25 _ (pow_ne_zero 2 hlogb)]
  rw [show (0.25 : ℝ) / Real.logb 10 (clampedArg Re D eps) ^ 2 =
    0.25 / Real.logb 10 (if eps / (3.7 * D) + 5.74 / Re ^ (0.9 : ℝ) ≤ 0 then (1e-12 : ℝ)
      else eps / (3.7 * D) + 5.74 / Re ^ (0.9 : ℝ)) ^ 2 from rfl]

theorem head_lossE_eq (Q D L : ℝ) (hD : D ≠ 0)
    (hcl : 2000 ≤ reynolds_number Q D rhoWater muWater →
      clampedArg (reynolds_number Q D rhoWater muWater) D 0.000045 ≠ 1) :
    head_lossE Q D L = some (head_loss Q D L) := by
  unfold head_lossE head_loss
  by_cases hQ : Q ≤ 0
  · rw [if_pos hQ, if_pos hQ]
  rw [if_neg hQ, if_neg hQ]
  have hmu : muWater ≠ 0 := by
    unfold muWater
    norm_num
  rw [show divE Q (area D) = some (velocity_from_Q Q D) from
      divE_ne Q (area D) (area_ne_zero D hD)]
  simp only [Option.some_bind]
  rw [reynoldsE_eq Q D rhoWater muWater hD hmu]
  simp only [Option.some_bind]
  rw [frictionE_eq (reynolds_number Q D rhoWater muWater) D 0.000045 hD hcl]
  simp only [Option.some_bind]
  rw [divE_ne L D hD]
  simp only [Option.map_some']

theorem residE_eq (QT D1 L1 D2 L2 : ℝ)
    (H1 : ∀ q : ℝ, head_lossE q D1 L1 = some (head_loss q D1 L1))
    (H2 : ∀ q : ℝ, head_lossE q D2 L2 = some (head_loss q D2 L2)) (Q1 : ℝ) :
    residE QT D1 L1 D2 L2 Q1 = some (resid QT D1 L1 D2 L2 Q1) := by
  unfold residE resid
  rw [H1 Q1]
  simp only [Option.some_bind]
  rw [H2 (QT - Q1)]
  simp only [Option.map_some']

theorem shrinkE_zero (g : ℝ → Option ℝ) (a b fa : ℝ) :
    shrinkE g 0 a b fa = some none := rfl

theorem shrinkE_succ (g : ℝ → Option ℝ) (n : ℕ) (a b fa : ℝ) :
    shrinkE g (n + 1) a b fa =
      (g (max (a + 1e-15) (b * 0.9))).bind fun fb2 =>
        if fa * fb2 ≤ 0 then some (some (max (a + 1e-15) (b * 0.9), fb2))
        else shrinkE g n a (max (a + 1e-15) (b * 0.9)) fa := rfl

theorem shrinkE_eq (g : ℝ → ℝ) (gE : ℝ → Option ℝ)
    (Hg : ∀ q : ℝ, gE q = some (g q)) :
    ∀ (n : ℕ) (a b fa : ℝ), shrinkE gE n a b fa = some (shrink g n a b fa) := by
  intro n
  induction n with
  | zero =>
    intro a b fa
    rw [shrinkE_zero, shrink_zero]
  | succ m ih =>
    intro a b fa
    rw [shrinkE_succ, shrink_succ, Hg (max (a + 1e-15) (b * 0.9))]
    simp only [Option.some_bind]
    split_ifs with h
    · rfl
    · exact ih a (max (a + 1e-15) (b * 0.9)) fa

theorem bisectLoopE_zero (g : ℝ → Option ℝ) (tol a b fa : ℝ) (it : ℕ) :
    bisectLoopE g tol 0 a b fa it = some (a, b, it) := rfl

theorem bisectLoopE_succ (g : ℝ → Option ℝ) (tol : ℝ) (n : ℕ) (a b fa : ℝ) (it : ℕ) :
    bisectLoopE g tol (n + 1) a b fa it =
      (g ((a + b) / 2)).bind fun fm =>
        if |fm| < tol then some (a, b, it)
        else if fa * fm ≤ 0 then bisectLoopE g tol n a ((a + b) / 2) fa (it + 1)
        else bisectLoopE g tol n ((a + b) / 2) b fm (it + 1) := rfl

theorem bisectLoopE_eq (g : ℝ → ℝ) (gE : ℝ → Option ℝ) (tol : ℝ)
    (Hg : ∀ q : ℝ, gE q = some (g q)) :
    ∀ (n : ℕ) (a b fa : ℝ) (it : ℕ),
      bisectLoopE gE tol n a b fa it = some (bisectLoop g tol n a b fa it) := by
  intro n
  induction n with
  | zero =>
    intro a b fa it
    rw [bisectLoopE_zero, bisectLoop_zero]
  | succ m ih =>
    intro a b fa it
    rw [bisectLoopE_succ, bisectLoop_succ, Hg ((a + b) / 2)]
    simp only [Option.some_bind]
    split_ifs with h1 h2
    · rfl
    · exact ih a ((a + b) / 2) fa (it + 1)
    · exact ih ((a + b) / 2) b (g ((a + b) / 2)) (it + 1)

theorem solve_parallelE_eq (QT D1 L1 D2 L2 tol : ℝ) (n : ℕ)
    (H1 : ∀ q : ℝ, head_lossE q D1 L1 = some (head_loss q D1 L1))
    (H2 : ∀ q : ℝ, head_lossE q D2 L2 = some (head_loss q D2 L2)) :
    solve_parallelE QT D1 L1 D2 L2 tol n =
      some (solve_parallel QT D1 L1 D2 L2 tol n) := by
  have hres := residE_eq QT D1 L1 D2 L2 H1 H2
  by_cases h1 : QT ≤ 0 ∨ D1 ≤ 0 ∨ D2 ≤ 0 ∨ L1 ≤ 0 ∨ L2 ≤ 0
  · have hpre : solve_pre QT D1 L1 D2 L2 = SolverPre.early ⟨0.0, 0.0, 0.0, 0⟩ := by
      unfold solve_pre
      rw [if_pos h1]
    unfold solve_parallelE
    rw [if_pos h1, solve_parallel_early QT D1 L1 D2 L2 tol n _ hpre]
  by_cases h2 : QT - 1e-12 ≤ 1e-12
  · have hpre : solve_pre QT D1 L1 D2 L2 =
        SolverPre.early ⟨QT, 0.0, head_loss QT D1 L1, 0⟩ := by
      unfold solve_pre
      dsimp only
      rw [if_neg h1, if_pos h2]
    unfold solve_parallelE
    rw [if_neg h1, if_pos h2, H1 QT,
      solve_parallel_early QT D1 L1 D2 L2 tol n _ hpre]
    simp only [Option.map_some']
  unfold solve_parallelE
  rw [if_neg h1, if_neg h2, hres 1e-12]
  simp only [Option.some_bind]
  rw [hres (QT - 1e-12)]
  simp only [Option.some_bind]
  by_cases h3 : resid QT D1 L1 D2 L2 1e-12 * resid QT D1 L1 D2 L2 (QT - 1e-12) > 0
  · rw [if_pos h3,
      shrinkE_eq (resid QT D1 L1 D2 L2) (residE QT D1 L1 D2 L2) hres 20 1e-12
        (QT - 1e-12) (resid QT D1 L1 D2 L2 1e-12)]
    simp only [Option.some_bind]
    rcases hs : shrink (resid QT D1 L1 D2 L2) 20 1e-12 (QT - 1e-12)
        (resid QT D1 L1 D2 L2 1e-12) with _ | ⟨b2, fb2⟩
    · have hpre : solve_pre QT D1 L1 D2 L2 =
          SolverPre.early ⟨QT / 2, QT - QT / 2, head_loss (QT / 2) D1 L1, 0⟩ := by
        unfold solve_pre
        dsimp only
        rw [if_neg h1, if_neg h2, if_pos h3, hs]
      rw [solve_parallel_early QT D1 L1 D2 L2 tol n _ hpre, H1 (QT / 2)]
      simp only [Option.map_some']
    · have hpre : solve_pre QT D1 L1 D2 L2 =
          SolverPre.loop 1e-12 b2 (resid QT D1 L1 D2 L2 1e-12) := by
        unfold solve_pre
        dsimp only
        rw [if_neg h1, if_neg h2, if_pos h3, hs]
      dsimp only
      rw [solve_parallel_loop QT D1 L1 D2 L2 tol n _ _ _ hpre,
        bisectLoopE_eq (resid QT D1 L1 D2 L2) (residE QT D1 L1 D2 L2) tol hres n
          1e-12 b2 (resid QT D1 L1 D2 L2 1e-12) 0]
      simp only [Option.some_bind]
      rw [H1 (((bisectLoop (resid QT D1 L1 D2 L2) tol n 1e-12 b2
        (resid QT D1 L1 D2 L2 1e-12) 0).1 +
        (bisectLoop (resid QT D1 L1 D2 L2) tol n 1e-12 b2
          (resid QT D1 L1 D2 L2 1e-12) 0).2.1) / 2)]
      simp only [Option.map_some']
  · rw [if_neg h3]
    have hpre : solve_pre QT D1 L1 D2 L2 =
        SolverPre.loop 1e-12 (QT - 1e-12) (resid QT D1 L1 D2 L2 1e-12) := by
      unfold solve_pre
      dsimp only
      rw [if_neg h1, if_neg h2, if_neg h3]
    rw [solve_parallel_loop QT D1 L1 D2 L2 tol n _ _ _ hpre,
      bisectLoopE_eq (resid QT D1 L1 D2 L2) (residE QT D1 L1 D2 L2) tol hres n
        1e-12 (QT - 1e-12) (resid QT D1 L1 D2 L2 1e-12) 0]
    simp only [Option.some_bind]
    rw [H1 (((bisectLoop (resid QT D1 L1 D2 L2) tol n 1e-12 (QT - 1e-12)
      (resid QT D1 L1 D2 L2 1e-12) 0).1 +
      (bisectLoop (resid QT D1 L1 D2 L2) tol n 1e-12 (QT - 1e-12)
        (resid QT D1 L1 D2 L2 1e-12) 0).2.1) / 2)]
    simp only [Option.map_some']

theorem rpow_2000_gt : (574 : ℝ) < (2000 : ℝ) ^ (0.9 : ℝ) := by
  have hpos : (0 : ℝ) < (2000 : ℝ) ^ (0.9 : ℝ) :=
    Real.rpow_pos_of_pos (by norm_num) _
  have h1 : ((2000 : ℝ) ^ (0.9 : ℝ)) ^ (10 : ℕ) = (2000 : ℝ) ^ (9 : ℕ) := by
    rw [← Real.rpow_natCast ((2000 : ℝ) ^ (0.9 : ℝ)) 10,
      ← Real.rpow_mul (by norm_num : (0 : ℝ) ≤ 2000)]
    rw [show (0.9 : ℝ) * (10 : ℕ) = ((9 : ℕ) : ℝ) by norm_num]
    rw [Real.rpow_natCast]
  refine lt_of_pow_lt_pow_left 10 hpos.le ?_
  rw [h1]
  norm_num

theorem clampedArg_lt_one (Re D : ℝ) (hD : 1 ≤ D) (hRe : 2000 ≤ Re) :
    clampedArg Re D 0.000045 < 1 := by
  have hRe0 : (0 : ℝ) < Re := lt_of_lt_of_le (by norm_num) hRe
  have hrp : (0 : ℝ) < Re ^ (0.9 : ℝ) := Real.rpow_pos_of_pos hRe0 _
  have hmono : (2000 : ℝ) ^ (0.9 : ℝ) ≤ Re ^ (0.9 : ℝ) :=
    Real.rpow_le_rpow (by norm_num) hRe (by norm_num)
  have hB : 5.74 / Re ^ (0.9 : ℝ) < 0.01 := by
    rw [div_lt_iff hrp]
    nlinarith [rpow_2000_gt]
  have hA : 0.000045 / (3.7 * D) ≤ 0.000045 / 3.7 := by
    apply div_le_div_of_nonneg_left (by norm_num) (by norm_num)
    nlinarith
  have hterm : 0.000045 / (3.7 * D) + 5.74 / Re ^ (0.9 : ℝ) < 1 := by
    have : (0.000045 : ℝ) / 3.7 < 0.99 := by norm_num
    linarith
  have hterm0 : 0 < 0.000045 / (3.7 * D) + 5.74 / Re ^ (0.9 : ℝ) := by
    have hApos : 0 < 0.000045 / (3.7 * D) := by
      apply div_pos (by norm_num)
      nlinarith
    positivity
  unfold clampedArg
  dsimp only
  rw [if_neg (not_le.mpr hterm0)]
  exact hterm

theorem head_lossE_eq_of_one_le (D L : ℝ) (hD : 1 ≤ D) (q : ℝ) :
    head_lossE q D L = some (head_loss q D L) :=
  head_lossE_eq q D L (by intro hcon; rw [hcon] at hD; norm_num at hD)
    (fun hRe => ne_of_lt (clampedArg_lt_one _ D hD hRe))

/-- C8 counterexample: with `D = 0` the source raises `ZeroDivisionError`
instead of returning defensively: the turbulent branch of the friction
factor divides by `3.7 * 0`, and `head_loss` and `reynolds_number` divide
by `area(0) = 0` for positive flow. -/
theorem c8_counterexample :
    frictionE 2000 0 0.000045 = none ∧ head_lossE 1 0 1 = none ∧
    reynoldsE 1 0 998 0.001002 = none := by
  refine ⟨?_, ?_, ?_⟩
  · unfold frictionE
    rw [if_neg (by norm_num), if_neg (by norm_num),
      show (3.7 : ℝ) * 0 = 0 by ring, divE_zero]
    rfl
  · unfold head_lossE
    rw [if_neg (by norm_num),
      show area 0 = 0 by unfold area; norm_num, divE_zero]
    rfl
  · unfold reynoldsE
    rw [show area 0 = 0 by unfold area; norm_num, divE_zero]
    rfl

/-- C8 amended: the core functions are total away from the division-by-zero
cases: for `D ≠ 0`, `mu ≠ 0`, and a Swamee-Jain clamped `log10` argument
different from 1 (automatic in the laminar branch), `reynoldsNumber`,
`frictionFactor` and `headLoss` return exactly the values of the total
model; and `solveParallel` returns a value whenever its two branch
head-loss functions evaluate without raising.  At `D = 0` the turbulent
friction factor and the positive-flow head loss raise
(`ZeroDivisionError`) rather than returning a sentinel. -/
theorem c8_amended (Q D L Re eps rho mu QT D1 L1 D2 L2 tol : ℝ) (n : ℕ)
    (hD : D ≠ 0) (hmu : mu ≠ 0)
    (hfr : 2000 ≤ Re → clampedArg Re D eps ≠ 1)
    (hhl : 2000 ≤ reynolds_number Q D rhoWater muWater →
      clampedArg (reynolds_number Q D rhoWater muWater) D 0.000045 ≠ 1)
    (H1 : ∀ q : ℝ, head_lossE q D1 L1 = some (head_loss q D1 L1))
    (H2 : ∀ q : ℝ, head_lossE q D2 L2 = some (head_loss q D2 L2)) :
    reynoldsE Q D rho mu = some (reynolds_number Q D rho mu) ∧
    frictionE Re D eps = some (friction_factor_swamee_jain Re D eps) ∧
    head_lossE Q D L = some (head_loss Q D L) ∧
    solve_parallelE QT D1 L1 D2 L2 tol n = some (solve_parallel QT D1 L1 D2 L2 tol n) :=
  ⟨reynoldsE_eq Q D rho mu hD hmu, frictionE_eq Re D eps hD hfr,
    head_lossE_eq Q D L hD hhl, solve_parallelE_eq QT D1 L1 D2 L2 tol n H1 H2⟩

/-- C8 witness: totality of all four functions at unit-pipe inputs. -/
theorem c8_witness :
    reynoldsE 1 1 998 0.001002 = some (reynolds_number 1 1 998 0.001002) ∧
    frictionE 1000 1 0.000045 = some (friction_factor_swamee_jain 1000 1 0.000045) ∧
    head_lossE 1 1 1 = some (head_loss 1 1 1) ∧
    solve_parallelE 1 1 1 1 1 1e-9 100 = some (solve_parallel 1 1 1 1 1 1e-9 100) :=
  c8_amended 1 1 1 1000 0.000045 998 0.001002 1 1 1 1 1 1e-9 100
    (by norm_num) (by norm_num)
    (fun hcon => absurd hcon (by norm_num))
    (fun hRe => ne_of_lt (clampedArg_lt_one _ 1 le_rfl hRe))
    (head_lossE_eq_of_one_le 1 1 le_rfl)
    (head_lossE_eq_of_one_le 1 1 le_rfl)
